import Mathlib

/-!
Verification of the PromQL parse/explain engine of this repository
(`src/services/parseClient.ts`).

The concrete syntax tree handed over by the external lezer parser is
modelled as `SynNode` (kind name, byte range, error flag, children), and
every function of `parseClient.ts` is translated into an executable Lean
definition over that model: `buildAST`, `isExpressionNode`,
`parseLabelMatchers`, `parseGroupingLabels`, `parseDuration`,
`explainQuery`, `formatDuration`, and the entry point `parseQuery`.
JavaScript truthiness of the optional AST fields is modelled explicitly
(`jsOrStr`, `jsInterp`, `Option.getD`).
-/

/-- AST node type tags, mirroring the `NodeType` string union of
`parseClient.ts`. -/
inductive NodeType : Type where
  | aggregation
  | binaryExpr
  | call
  | matrixSelector
  | subquery
  | numberLiteral
  | parenExpr
  | stringLiteral
  | unaryExpr
  | vectorSelector
  | error
deriving DecidableEq, Repr

/-- The four label-matcher operators `=`, `!=`, `=~`, `!~`
(the TypeScript union type of `LabelMatcher.type`). -/
inductive MatchType : Type where
  | eq
  | neq
  | re
  | nre
deriving DecidableEq, Repr

/-- The operator token of a `MatchType`, as written in a query. -/
def matchTypeStr : MatchType → String
  | .eq => "="
  | .neq => "!="
  | .re => "=~"
  | .nre => "!~"

/-- `LabelMatcher` of `parseClient.ts`: one `name <op> "value"` filter. -/
structure LabelMatcher : Type where
  type : MatchType
  name : String
  value : String
deriving DecidableEq, Repr

/-- `ParsedNode` of `parseClient.ts`: the simplified AST.  The TypeScript
interface has a mandatory `type` and `text` and optional fields
`children`, `op`, `name`, `matchers`, `range`, `offset`, `grouping`,
`without`, `funcName`, `args`, `value`; an absent field is `none`. -/
inductive ParsedNode : Type where
  | mk (type : NodeType) (text : String)
      (children : Option (List ParsedNode))
      (op : Option String)
      (name : Option String)
      (matchers : Option (List LabelMatcher))
      (range : Option Nat)
      (offset : Option Nat)
      (grouping : Option (List String))
      (without : Option Bool)
      (funcName : Option String)
      (args : Option (List ParsedNode))
      (value : Option String)

def ParsedNode.type : ParsedNode → NodeType
  | .mk ty _ _ _ _ _ _ _ _ _ _ _ _ => ty

def ParsedNode.text : ParsedNode → String
  | .mk _ tx _ _ _ _ _ _ _ _ _ _ _ => tx

def ParsedNode.children : ParsedNode → Option (List ParsedNode)
  | .mk _ _ ch _ _ _ _ _ _ _ _ _ _ => ch

def ParsedNode.op : ParsedNode → Option String
  | .mk _ _ _ op _ _ _ _ _ _ _ _ _ => op

def ParsedNode.name : ParsedNode → Option String
  | .mk _ _ _ _ nm _ _ _ _ _ _ _ _ => nm

def ParsedNode.matchers : ParsedNode → Option (List LabelMatcher)
  | .mk _ _ _ _ _ ms _ _ _ _ _ _ _ => ms

def ParsedNode.range : ParsedNode → Option Nat
  | .mk _ _ _ _ _ _ rg _ _ _ _ _ _ => rg

def ParsedNode.offset : ParsedNode → Option Nat
  | .mk _ _ _ _ _ _ _ off _ _ _ _ _ => off

def ParsedNode.grouping : ParsedNode → Option (List String)
  | .mk _ _ _ _ _ _ _ _ gr _ _ _ _ => gr

def ParsedNode.without : ParsedNode → Option Bool
  | .mk _ _ _ _ _ _ _ _ _ wo _ _ _ => wo

def ParsedNode.funcName : ParsedNode → Option String
  | .mk _ _ _ _ _ _ _ _ _ _ fn _ _ => fn

def ParsedNode.args : ParsedNode → Option (List ParsedNode)
  | .mk _ _ _ _ _ _ _ _ _ _ _ ar _ => ar

def ParsedNode.value : ParsedNode → Option String
  | .mk _ _ _ _ _ _ _ _ _ _ _ _ v => v

/-- The concrete syntax tree produced by the external lezer parser: a node
has a kind name (`node.type.name`), a half-open byte range
(`node.from`/`node.to`), an error flag (`node.type.isError`) and an
ordered list of children. -/
inductive SynNode : Type where
  | mk (kind : String) (fromPos : Nat) (toPos : Nat) (isError : Bool)
      (children : List SynNode)

def SynNode.kind : SynNode → String
  | .mk k _ _ _ _ => k

def SynNode.fromPos : SynNode → Nat
  | .mk _ f _ _ _ => f

def SynNode.toPos : SynNode → Nat
  | .mk _ _ t _ _ => t

def SynNode.isError : SynNode → Bool
  | .mk _ _ _ e _ => e

def SynNode.children : SynNode → List SynNode
  | .mk _ _ _ _ cs => cs

/-- lezer's `node.getChild(kind)`: the first direct child of that kind. -/
def SynNode.getChild (n : SynNode) (k : String) : Option SynNode :=
  n.children.find? (fun c => c.kind == k)

/-- lezer's `node.firstChild` / `cursor.firstChild()`. -/
def SynNode.firstChild (n : SynNode) : Option SynNode :=
  n.children.head?

/-- JavaScript `query.slice(a, b)` for byte offsets `a ≤ b` into `q`. -/
def jsSlice (q : String) (a b : Nat) : String :=
  ((q.toList.drop a).take (b - a)).asString

/-- JavaScript `s.slice(1, -1)`: drop the first and last character
(used by the code to strip the quotes of a string literal). -/
def stripEnds (s : String) : String :=
  ((s.toList.drop 1).dropLast).asString

/-- Whether `sub` is a prefix of some suffix of the list, i.e. occurs as a
contiguous run. -/
def listHasInfix (sub : List Char) : List Char → Bool
  | [] => sub.isPrefixOf []
  | c :: rest => sub.isPrefixOf (c :: rest) || listHasInfix sub rest

/-- JavaScript `s.includes(sub)`: substring containment. -/
def strIncludes (s sub : String) : Bool :=
  listHasInfix sub.toList s.toList

/-- JavaScript `x || d` for an optional string `x`: both `undefined` and
the empty string are falsy. -/
def jsOrStr : Option String → String → String
  | some s, d => if s = "" then d else s
  | none, d => d

/-- JavaScript template interpolation of a possibly-undefined string. -/
def jsInterp : Option String → String
  | some s => s
  | none => "undefined"

/-- JavaScript `s.toLowerCase()` on the ASCII operator names the grammar
emits: lower-case every character. -/
def jsToLower (s : String) : String :=
  (s.toList.map Char.toLower).asString

/-- Unit-to-millisecond table of `parseDuration` in `parseClient.ts`. -/
def durUnits : String → Option Nat
  | "ms" => some 1
  | "s" => some 1000
  | "m" => some 60000
  | "h" => some 3600000
  | "d" => some 86400000
  | "w" => some 604800000
  | "y" => some 31536000000
  | _ => none

/-- The `regex.exec` loop of `parseDuration` over the regular expression
`(\d+)(ms|s|m|h|d|w|y)` with the `g` flag, fused into one left-to-right
scan.  The first argument is `some acc` while inside a run of digits with
accumulated value `acc`, and `none` otherwise.  The alternation
`ms|s|m|h|d|w|y` is ordered, so after a digit run an `m` followed by an
`s` reads as the unit `ms`.  A digit run not followed by a unit letter
matches nothing (positions inside the run cannot start a match either,
since shrinking the greedy `\d+` leaves a digit, not a unit, after it). -/
def durScanAux : Option Nat → List Char → Nat
  | _, [] => 0
  | some acc, 'm' :: 's' :: rest => acc * ((durUnits "ms").getD 0) + durScanAux none rest
  | some acc, 's' :: rest => acc * ((durUnits "s").getD 0) + durScanAux none rest
  | some acc, 'm' :: rest => acc * ((durUnits "m").getD 0) + durScanAux none rest
  | some acc, 'h' :: rest => acc * ((durUnits "h").getD 0) + durScanAux none rest
  | some acc, 'd' :: rest => acc * ((durUnits "d").getD 0) + durScanAux none rest
  | some acc, 'w' :: rest => acc * ((durUnits "w").getD 0) + durScanAux none rest
  | some acc, 'y' :: rest => acc * ((durUnits "y").getD 0) + durScanAux none rest
  | some acc, c :: rest =>
      if c.isDigit then durScanAux (some (acc * 10 + (c.toNat - 48))) rest
      else durScanAux none rest
  | none, c :: rest =>
      if c.isDigit then durScanAux (some (c.toNat - 48)) rest
      else durScanAux none rest

/-- `parseDuration` of `parseClient.ts`: sum the matches of the scan and
return `total || 300000` (the 5 minute default when the total is 0). -/
def parseDuration (durationStr : String) : Nat :=
  let total := durScanAux none durationStr.toList
  if total = 0 then 300000 else total

/-- The `exprTypes` list of `isExpressionNode` in `parseClient.ts`. -/
def exprTypes : List String :=
  ["Expr", "AggregateExpr", "FunctionCall", "BinaryExpr",
   "VectorSelector", "MatrixSelector", "SubqueryExpr",
   "NumberLiteral", "NumberDurationLiteral", "StringLiteral",
   "ParenExpr", "UnaryExpr", "StepInvariantExpr"]

/-- `isExpressionNode` of `parseClient.ts`: expression-typed kinds. -/
def isExpressionNode (node : SynNode) : Bool :=
  exprTypes.contains node.kind

/-- The explicit operator-kind list of the `BinaryExpr` case of `buildAST`. -/
def binOpKinds : List String :=
  ["Add", "Sub", "Mul", "Div", "Mod", "Pow", "Eql", "Neq", "Lss", "Lte",
   "Gtr", "Gte", "And", "Or", "Unless"]

/-- `parseGroupingLabels` of `parseClient.ts`: collect the text of every
direct child of kind `LabelName`, in order. -/
def parseGroupingLabels (node : SynNode) (query : String) : List String :=
  node.children.foldl
    (fun labels c =>
      if c.kind = "LabelName" then labels ++ [jsSlice query c.fromPos c.toPos]
      else labels)
    []

/-- The loop body of `parseLabelMatchers` in `parseClient.ts`: for one
direct child of the `LabelMatchers` container, either push one matcher
onto the accumulated list or leave it unchanged. -/
def labelMatcherStep (query : String) (matchers : List LabelMatcher)
    (c : SynNode) : List LabelMatcher :=
  if c.kind = "LabelMatcher" ∨ c.kind = "UnquotedLabelMatcher" ∨
      c.kind = "QuotedLabelMatcher" then
    match c.getChild "LabelName", c.getChild "StringLiteral" with
    | some labelName, some stringLiteral =>
        let name := jsSlice query labelName.fromPos labelName.toPos
        let matchType : MatchType :=
          match c.getChild "MatchOp" with
          | some matchOp =>
              let opText := jsSlice query matchOp.fromPos matchOp.toPos
              if opText = "!=" then .neq
              else if opText = "=~" then .re
              else if opText = "!~" then .nre
              else .eq
          | none => .eq
        let rawValue := jsSlice query stringLiteral.fromPos stringLiteral.toPos
        let value := stripEnds rawValue
        matchers ++ [{ name := name, value := value, type := matchType }]
    | _, _ => matchers
  else matchers

/-- `parseLabelMatchers` of `parseClient.ts`: iterate the direct children
of a `LabelMatchers` container; each child of a single-matcher kind with
both a `LabelName` child and a `StringLiteral` child contributes one
matcher (operator defaulting to `=`); all other children are skipped. -/
def parseLabelMatchers (node : SynNode) (query : String) : List LabelMatcher :=
  node.children.foldl (labelMatcherStep query) []

theorem sizeOf_lt_of_mem_children {c n : SynNode} (h : c ∈ n.children) :
    sizeOf c < sizeOf n := by
  cases n with
  | mk k f t e cs =>
    simp only [SynNode.children] at h
    have := List.sizeOf_lt_of_mem h
    simp only [SynNode.mk.sizeOf_spec]
    omega

theorem sizeOf_lt_of_getChild {n c : SynNode} {k : String}
    (h : n.getChild k = some c) : sizeOf c < sizeOf n :=
  sizeOf_lt_of_mem_children (List.mem_of_find?_eq_some h)

theorem sizeOf_lt_of_firstChild {n c : SynNode} (h : n.firstChild = some c) :
    sizeOf c < sizeOf n := by
  apply sizeOf_lt_of_mem_children
  cases n with
  | mk k f t e cs =>
    cases cs with
    | nil => simp [SynNode.firstChild, SynNode.children] at h
    | cons x xs =>
      simp [SynNode.firstChild, SynNode.children] at h ⊢
      simp [h]

/-- `buildAST` of `parseClient.ts`: translate a concrete lezer node into a
`ParsedNode`, dispatching on the node-kind name exactly as the source's
`switch (nodeType)` does.  Fields of `ParsedNode.mk` are, in order:
type, text, children, op, name, matchers, range, offset, grouping,
without, funcName, args, value. -/
def buildAST (node : SynNode) (query : String) : ParsedNode :=
  let text := jsSlice query node.fromPos node.toPos
  if node.kind = "PromQL" ∨ node.kind = "Expr" then
    match _h1 : node.firstChild with
    | some child => buildAST child query
    | none =>
        ParsedNode.mk .error text none none none none none none none none none none none
  else if node.kind = "AggregateExpr" then
    let op :=
      match node.getChild "AggregateOp" with
      | some aggOp => jsToLower (jsSlice query aggOp.fromPos aggOp.toPos)
      | none => "unknown"
    let without :=
      match node.getChild "AggregateModifier" with
      | some modifier => (modifier.getChild "Without").isSome
      | none => false
    let grouping :=
      match node.getChild "AggregateModifier" with
      | some modifier =>
          match modifier.getChild "GroupingLabels" with
          | some labels => parseGroupingLabels labels query
          | none => []
      | none => []
    let children : List ParsedNode :=
      match _hb : node.getChild "FunctionCallBody" with
      | some body =>
          match _hc : body.firstChild with
          | some child => if isExpressionNode child then [buildAST child query] else []
          | none => []
      | none => []
    ParsedNode.mk .aggregation text (some children) (some op) none none none none
      (some grouping) (some without) none none none
  else if node.kind = "FunctionCall" then
    let funcName :=
      match node.getChild "FunctionIdentifier" with
      | some funcId => jsSlice query funcId.fromPos funcId.toPos
      | none => "unknown"
    match _hb : node.getChild "FunctionCallBody" with
    | some body =>
        ParsedNode.mk .call text none none none none none none none none
          (some funcName)
          (some ((body.children.filter isExpressionNode).attach.map
            (fun c => buildAST c.1 query)))
          none
    | none =>
        ParsedNode.mk .call text none none none none none none none none
          (some funcName) (some []) none
  else if node.kind = "BinaryExpr" then
    let op :=
      match (node.children.filter
          (fun c => !isExpressionNode c &&
            (strIncludes c.kind "Op" || binOpKinds.contains c.kind))).getLast? with
      | some c => jsSlice query c.fromPos c.toPos
      | none => ""
    ParsedNode.mk .binaryExpr text
      (some ((node.children.filter isExpressionNode).attach.map
        (fun c => buildAST c.1 query)))
      (some op) none none none none none none none none none
  else if node.kind = "VectorSelector" then
    let name :=
      match node.getChild "Identifier" <|> node.getChild "MetricIdentifier" with
      | some identifier => jsSlice query identifier.fromPos identifier.toPos
      | none => ""
    let matchers :=
      match node.getChild "LabelMatchers" with
      | some labelMatchersNode => parseLabelMatchers labelMatchersNode query
      | none => []
    ParsedNode.mk .vectorSelector text none none (some name) (some matchers)
      none none none none none none none
  else if node.kind = "MatrixSelector" then
    match _hv : node.getChild "VectorSelector" with
    | some vectorSelector =>
        let vsAst := buildAST vectorSelector query
        let range :=
          match node.getChild "Duration" <|>
              node.getChild "NumberDurationLiteralInDurationContext" with
          | some durationNode =>
              parseDuration (jsSlice query durationNode.fromPos durationNode.toPos)
          | none => 300000
        ParsedNode.mk .matrixSelector text none none vsAst.name vsAst.matchers
          (some range) none none none none none none
    | none =>
        match _hf : node.getChild "FunctionCall" with
        | some funcCall => buildAST funcCall query
        | none =>
            ParsedNode.mk .matrixSelector text none none none none none none
              none none none none none
  else if node.kind = "SubqueryExpr" then
    match _he : node.getChild "Expr" with
    | some expr =>
        ParsedNode.mk .subquery text (some [buildAST expr query]) none none none
          none none none none none none none
    | none =>
        ParsedNode.mk .subquery text (some []) none none none none none none
          none none none none
  else if node.kind = "NumberLiteral" ∨ node.kind = "NumberDurationLiteral" then
    ParsedNode.mk .numberLiteral text none none none none none none none none
      none none (some text)
  else if node.kind = "StringLiteral" then
    ParsedNode.mk .stringLiteral text none none none none none none none none
      none none (some (stripEnds text))
  else if node.kind = "ParenExpr" then
    match _hp : node.getChild "Expr" with
    | some inner =>
        ParsedNode.mk .parenExpr text (some [buildAST inner query]) none none
          none none none none none none none none
    | none =>
        ParsedNode.mk .parenExpr text (some []) none none none none none none
          none none none none
  else if node.kind = "UnaryExpr" then
    let op :=
      match (node.children.filter
          (fun c => c.kind == "Add" || c.kind == "Sub")).getLast? with
      | some c => jsSlice query c.fromPos c.toPos
      | none => ""
    ParsedNode.mk .unaryExpr text
      (some ((node.children.filter
          (fun c => !(c.kind == "Add" || c.kind == "Sub") && isExpressionNode c)).attach.map
        (fun c => buildAST c.1 query)))
      (some op) none none none none none none none none none
  else
    let builtChildren :=
      (node.children.filter isExpressionNode).attach.map (fun c => buildAST c.1 query)
    match builtChildren with
    | [c] => c
    | cs =>
        ParsedNode.mk .error text (match cs with | [] => none | _ => some cs)
          none none none none none none none none none none
termination_by sizeOf node
decreasing_by
  · exact sizeOf_lt_of_firstChild _h1
  · exact Nat.lt_trans (sizeOf_lt_of_firstChild _hc) (sizeOf_lt_of_getChild _hb)
  · exact Nat.lt_trans
      (sizeOf_lt_of_mem_children (List.mem_of_mem_filter c.2))
      (sizeOf_lt_of_getChild _hb)
  · exact sizeOf_lt_of_mem_children (List.mem_of_mem_filter c.2)
  · exact sizeOf_lt_of_getChild _hv
  · exact sizeOf_lt_of_getChild _hf
  · exact sizeOf_lt_of_getChild _he
  · exact sizeOf_lt_of_getChild _hp
  · exact sizeOf_lt_of_mem_children (List.mem_of_mem_filter c.2)
  · exact sizeOf_lt_of_mem_children (List.mem_of_mem_filter c.2)

mutual
/-- The error scan of `parseQuery` (`cursor.iterate` setting `hasError`):
whether any node of the tree is flagged as an error node. -/
def hasErrorNode : SynNode → Bool
  | .mk _ _ _ e cs => e || hasErrorList cs
/-- `hasErrorNode` over a list of sibling subtrees. -/
def hasErrorList : List SynNode → Bool
  | [] => false
  | c :: cs => hasErrorNode c || hasErrorList cs
end

/-- A JavaScript thrown value as seen by the `catch` arm of `parseQuery`:
either an `Error` carrying a message, or anything else. -/
inductive JsThrown : Type where
  | jsError (message : String)
  | jsOther

/-- `error instanceof Error ? error.message : 'Unknown parse error'`. -/
def thrownMessage : JsThrown → String
  | .jsError message => message
  | .jsOther => "Unknown parse error"

/-- `ParseResult` of `parseClient.ts`. -/
structure ParseResult : Type where
  success : Bool
  ast : Option ParsedNode
  error : Option String

/-- `parseQuery` of `parseClient.ts`.  The external concrete-syntax-tree
producer (`parser.parse`) is a parameter; it either returns the tree's
top node or throws.  The `try`/`catch` of the source converts a throw
into a failure result; an error node anywhere in the tree yields the
`Parse error in query` failure; a top node without a first child yields
the `Empty query` failure; otherwise the AST is built from the first
child. -/
def parseQuery (parse : String → Except JsThrown SynNode) (query : String) :
    ParseResult :=
  match parse query with
  | .error e => { success := false, ast := none, error := some (thrownMessage e) }
  | .ok tree =>
      if hasErrorNode tree then
        { success := false, ast := none, error := some "Parse error in query" }
      else
        match tree.firstChild with
        | none => { success := false, ast := none, error := some "Empty query" }
        | some first =>
            { success := true, ast := some (buildAST first query), error := none }

/-- The `opDescriptions` table of the aggregation case of `explainQuery`. -/
def aggOpDescs : String → Option String
  | "sum" => some "sums"
  | "avg" => some "calculates the average of"
  | "min" => some "finds the minimum of"
  | "max" => some "finds the maximum of"
  | "count" => some "counts"
  | "stddev" => some "calculates the standard deviation of"
  | "stdvar" => some "calculates the variance of"
  | "topk" => some "returns the top K values of"
  | "bottomk" => some "returns the bottom K values of"
  | "quantile" => some "calculates a quantile of"
  | "group" => some "groups"
  | _ => none

/-- The `funcDescriptions` table of the call case of `explainQuery`. -/
def funcDescs : String → Option String
  | "rate" => some "calculates the per-second rate of increase"
  | "irate" => some "calculates the instant rate of increase"
  | "increase" => some "calculates the total increase"
  | "delta" => some "calculates the difference between first and last value"
  | "histogram_quantile" => some "calculates a percentile from histogram buckets"
  | "label_replace" => some "replaces label values using regex"
  | "label_join" => some "joins label values"
  | "abs" => some "returns absolute values"
  | "ceil" => some "rounds up to nearest integer"
  | "floor" => some "rounds down to nearest integer"
  | "round" => some "rounds to nearest integer"
  | "sqrt" => some "calculates square root"
  | "exp" => some "calculates exponential"
  | "ln" => some "calculates natural logarithm"
  | "log2" => some "calculates base-2 logarithm"
  | "log10" => some "calculates base-10 logarithm"
  | "time" => some "returns the current Unix timestamp"
  | "timestamp" => some "returns the timestamp of each sample"
  | "absent" => some "returns 1 if the series is absent"
  | "absent_over_time" => some "returns 1 if the series has no values in the range"
  | "changes" => some "counts value changes"
  | "resets" => some "counts counter resets"
  | "deriv" => some "calculates the derivative using linear regression"
  | "predict_linear" => some "predicts future values using linear regression"
  | "holt_winters" => some "applies Holt-Winters smoothing"
  | "clamp" => some "clamps values between min and max"
  | "clamp_min" => some "clamps values to a minimum"
  | "clamp_max" => some "clamps values to a maximum"
  | "sort" => some "sorts values ascending"
  | "sort_desc" => some "sorts values descending"
  | "avg_over_time" => some "calculates average over time range"
  | "min_over_time" => some "finds minimum over time range"
  | "max_over_time" => some "finds maximum over time range"
  | "sum_over_time" => some "sums values over time range"
  | "count_over_time" => some "counts samples over time range"
  | "stddev_over_time" => some "calculates standard deviation over time range"
  | "stdvar_over_time" => some "calculates variance over time range"
  | "last_over_time" => some "returns last value in time range"
  | "present_over_time" => some "returns 1 if any sample exists in range"
  | "quantile_over_time" => some "calculates quantile over time range"
  | _ => none

/-- The `opDescriptions` table of the binary-expression case of
`explainQuery`. -/
def binOpDescs : String → Option String
  | "+" => some "adds"
  | "-" => some "subtracts"
  | "*" => some "multiplies"
  | "/" => some "divides"
  | "%" => some "calculates modulo of"
  | "^" => some "raises to the power of"
  | "==" => some "checks equality of"
  | "!=" => some "checks inequality of"
  | ">" => some "compares (greater than)"
  | "<" => some "compares (less than)"
  | ">=" => some "compares (greater or equal)"
  | "<=" => some "compares (less or equal)"
  | "and" => some "performs logical AND on"
  | "or" => some "performs logical OR on"
  | "unless" => some "excludes matching series from"
  | _ => none

/-- `formatDuration` of `parseClient.ts`: render a millisecond count with
the largest unit among d, h, m, s, ms that the value reaches, flooring. -/
def formatDuration (ms : Nat) : String :=
  if ms ≥ 86400000 then toString (ms / 86400000) ++ "d"
  else if ms ≥ 3600000 then toString (ms / 3600000) ++ "h"
  else if ms ≥ 60000 then toString (ms / 60000) ++ "m"
  else if ms ≥ 1000 then toString (ms / 1000) ++ "s"
  else toString ms ++ "ms"

/-- The matcher rendering of the vector-selector case of `explainQuery`. -/
def matcherDesc (m : LabelMatcher) : String :=
  match m.type with
  | .eq => m.name ++ " equals \"" ++ m.value ++ "\""
  | .neq => m.name ++ " does not equal \"" ++ m.value ++ "\""
  | .re => m.name ++ " matches regex \"" ++ m.value ++ "\""
  | .nre => m.name ++ " does not match regex \"" ++ m.value ++ "\""

/-- `explainQuery` of `parseClient.ts`: one template-filled sentence per
node, dispatching on `ast.type`; JavaScript truthiness of the optional
fields is modelled by `jsOrStr` / `Option.getD` / explicit matches, and
interpolation of a possibly-undefined field by `jsInterp`. -/
def explainQuery (ast : ParsedNode) : String :=
  match ast.type with
  | .aggregation =>
      let opDesc :=
        match aggOpDescs ((ast.op).getD "") with
        | some d => d
        | none => "applies " ++ jsInterp ast.op ++ " to"
      let explanation := "This expression " ++ opDesc ++ " the values"
      match ast.grouping with
      | some grouping =>
          if 0 < grouping.length then
            if (ast.without).getD false then
              explanation ++ ", excluding labels: " ++ String.intercalate ", " grouping
            else
              explanation ++ ", grouped by: " ++ String.intercalate ", " grouping
          else explanation
      | none => explanation
  | .call =>
      let desc :=
        match funcDescs ((ast.funcName).getD "") with
        | some d => d
        | none => "applies " ++ jsInterp ast.funcName ++ "()"
      "The " ++ jsInterp ast.funcName ++ "() function " ++ desc
  | .vectorSelector =>
      let explanation := "Selects the metric \"" ++ jsOrStr ast.name "(any)" ++ "\""
      match ast.matchers with
      | some matchers =>
          if 0 < matchers.length then
            explanation ++ " where " ++
              String.intercalate " AND " (matchers.map matcherDesc)
          else explanation
      | none => explanation
  | .matrixSelector =>
      let durStr :=
        match ast.range with
        | some r => if r ≠ 0 then formatDuration r else "5 minutes"
        | none => "5 minutes"
      let explanation :=
        "Selects " ++ durStr ++ " of data for \"" ++ jsOrStr ast.name "(any)" ++ "\""
      match ast.matchers with
      | some matchers =>
          if 0 < matchers.length then explanation ++ " with label filters"
          else explanation
      | none => explanation
  | .binaryExpr =>
      let opDesc :=
        match binOpDescs ((ast.op).getD "") with
        | some d => d
        | none => jsInterp ast.op
      "Binary operation that " ++ opDesc ++ " two expressions"
  | .numberLiteral => "A scalar number with value " ++ jsInterp ast.value
  | .stringLiteral => "A string value: \"" ++ jsInterp ast.value ++ "\""
  | .parenExpr => "Parentheses grouping a sub-expression"
  | .unaryExpr =>
      "Unary " ++ (if ast.op = some "-" then "negation" else "plus") ++ " operator"
  | .subquery => "A subquery that evaluates an expression over a time range"
  | .error => "PromQL expression"

example : parseDuration "5m" = 300000 := by decide
example : parseDuration "1h30m" = 5400000 := by decide
example : parseDuration "" = 300000 := by decide
example : parseDuration "abc" = 300000 := by decide
example : parseDuration "2d" = 172800000 := by decide
example : parseDuration "10ms" = 10 := by decide
example : parseDuration "1y" = 31536000000 := by decide
example : parseDuration "0ms" = 300000 := by decide
example : parseDuration "3mss4m" = 240003 := by decide

/-- Modelled from the spec, §4.3: the left-to-right list of matches of
`<integer><unit>` in the text (unit among ms, s, m, h, d, w, y,
case-sensitive), each match reported as the pair of its integer and its
unit's milliseconds; non-matching characters are ignored.  The first
argument is `some acc` while inside a run of digits with value `acc`. -/
def specDurMatchesAux : Option Nat → List Char → List (Nat × Nat)
  | _, [] => []
  | some acc, 'm' :: 's' :: rest => (acc, 1) :: specDurMatchesAux none rest
  | some acc, 's' :: rest => (acc, 1000) :: specDurMatchesAux none rest
  | some acc, 'm' :: rest => (acc, 60000) :: specDurMatchesAux none rest
  | some acc, 'h' :: rest => (acc, 3600000) :: specDurMatchesAux none rest
  | some acc, 'd' :: rest => (acc, 86400000) :: specDurMatchesAux none rest
  | some acc, 'w' :: rest => (acc, 604800000) :: specDurMatchesAux none rest
  | some acc, 'y' :: rest => (acc, 31536000000) :: specDurMatchesAux none rest
  | some acc, c :: rest =>
      if c.isDigit then specDurMatchesAux (some (acc * 10 + (c.toNat - 48))) rest
      else specDurMatchesAux none rest
  | none, c :: rest =>
      if c.isDigit then specDurMatchesAux (some (c.toNat - 48)) rest
      else specDurMatchesAux none rest

/-- The matches of the spec's duration scan over a whole string. -/
def specDurMatches (s : String) : List (Nat × Nat) :=
  specDurMatchesAux none s.toList

theorem durScanAux_eq_sum (o : Option Nat) (l : List Char) :
    durScanAux o l = ((specDurMatchesAux o l).map (fun p => p.1 * p.2)).sum := by
  induction o, l using durScanAux.induct <;>
    simp_all [durScanAux, specDurMatchesAux, durUnits]

/-- C3: `parseDuration` sums `integer × unitMilliseconds` over every
left-to-right match of `<integer><unit>` anywhere in the string, ignoring
non-matching characters, and returns 300000 instead when that sum is 0;
in particular the four boundary examples of the spec hold. -/
theorem parseDuration_spec :
    (∀ s : String,
      parseDuration s =
        (if ((specDurMatches s).map (fun p => p.1 * p.2)).sum = 0 then 300000
         else ((specDurMatches s).map (fun p => p.1 * p.2)).sum)) ∧
    parseDuration "5m" = 300000 ∧
    parseDuration "1h30m" = 5400000 ∧
    parseDuration "" = 300000 ∧
    parseDuration "abc" = 300000 := by
  refine ⟨fun s => ?_, by decide, by decide, by decide, by decide⟩
  unfold parseDuration specDurMatches
  rw [durScanAux_eq_sum]

/-- Modelled from the spec, §4.2: the operator of a single-matcher child —
the text of an optional match-operator child interpreted as one of `!=`,
`=~`, `!~`, any other text or absence meaning `=`. -/
def specMatchOp (query : String) (c : SynNode) : MatchType :=
  match c.getChild "MatchOp" with
  | some matchOp =>
      let opText := jsSlice query matchOp.fromPos matchOp.toPos
      if opText = "!=" then .neq
      else if opText = "=~" then .re
      else if opText = "!~" then .nre
      else .eq
  | none => .eq

/-- Modelled from the spec, §4.2: the contribution of one direct child of
a label-matchers container — one matcher if the child is of a
single-matcher kind and has both a label-name child and a string-literal
child (value is the string literal with its quotes stripped), nothing
otherwise. -/
def matcherOfChild (query : String) (c : SynNode) : List LabelMatcher :=
  if c.kind = "LabelMatcher" ∨ c.kind = "UnquotedLabelMatcher" ∨
      c.kind = "QuotedLabelMatcher" then
    match c.getChild "LabelName", c.getChild "StringLiteral" with
    | some labelName, some stringLiteral =>
        [{ name := jsSlice query labelName.fromPos labelName.toPos,
           value := stripEnds (jsSlice query stringLiteral.fromPos stringLiteral.toPos),
           type := specMatchOp query c }]
    | _, _ => []
  else []

theorem labelMatcherStep_eq (query : String) (a : List LabelMatcher) (c : SynNode) :
    labelMatcherStep query a c = a ++ matcherOfChild query c := by
  unfold labelMatcherStep matcherOfChild specMatchOp
  split
  · split <;> simp
  · simp

theorem foldl_labelMatcherStep (query : String) (l : List SynNode)
    (a : List LabelMatcher) :
    l.foldl (labelMatcherStep query) a = a ++ (l.map (matcherOfChild query)).flatten := by
  induction l generalizing a with
  | nil => simp
  | cons c cs ih =>
      rw [List.foldl_cons, labelMatcherStep_eq, ih]
      simp

/-- C5: the matcher extractor returns, in encounter order, one matcher per
direct child of single-matcher kind having both a label-name child and a
string-literal child, with operator `!=`, `=~`, `!~` exactly when the
match-operator child's text is that token and `=` otherwise, the value
being the string literal with its quotes stripped, and all other children
contributing nothing; concretely, `status=~"5.."` yields the regex-match
matcher and `instance!="a"` the not-equal matcher. -/
theorem parseLabelMatchers_spec :
    (∀ (node : SynNode) (query : String),
      parseLabelMatchers node query =
        (node.children.map (matcherOfChild query)).flatten) ∧
    parseLabelMatchers
      (SynNode.mk "LabelMatchers" 0 13 false
        [SynNode.mk "UnquotedLabelMatcher" 0 13 false
          [SynNode.mk "LabelName" 0 6 false [],
           SynNode.mk "MatchOp" 6 8 false [],
           SynNode.mk "StringLiteral" 8 13 false []]])
      "status=~\"5..\"" = [{ type := .re, name := "status", value := "5.." }] ∧
    parseLabelMatchers
      (SynNode.mk "LabelMatchers" 0 13 false
        [SynNode.mk "UnquotedLabelMatcher" 0 13 false
          [SynNode.mk "LabelName" 0 8 false [],
           SynNode.mk "MatchOp" 8 10 false [],
           SynNode.mk "StringLiteral" 10 13 false []]])
      "instance!=\"a\"" = [{ type := .neq, name := "instance", value := "a" }] := by
  refine ⟨fun node query => ?_, by decide, by decide⟩
  unfold parseLabelMatchers
  rw [foldl_labelMatcherStep]
  simp

/-- C1: for every input string and every outcome of the concrete-syntax
-tree producer (including a throw), `parseQuery` returns a well-formed
`ParseResult` — success with an AST and no error, or failure with an
error message and no AST — and a throw of the producer is converted into
a failure result carrying the thrown error's message. -/
theorem parseQuery_total (parse : String → Except JsThrown SynNode) (query : String) :
    (((parseQuery parse query).success = true ∧
        ((parseQuery parse query).ast).isSome = true ∧
        (parseQuery parse query).error = none) ∨
      ((parseQuery parse query).success = false ∧
        (parseQuery parse query).ast = none ∧
        ((parseQuery parse query).error).isSome = true)) ∧
    (∀ e : JsThrown, parse query = .error e →
      parseQuery parse query =
        { success := false, ast := none, error := some (thrownMessage e) }) := by
  constructor
  · unfold parseQuery
    rcases hp : parse query with e | tree
    · simp
    · by_cases he : hasErrorNode tree
      · simp [he]
      · rcases hf : tree.firstChild with _ | first <;> simp [he, hf]
  · intro e he
    unfold parseQuery
    rw [he]

/-- Witness for C1 at a concrete throwing producer. -/
theorem parseQuery_total_witness :
    parseQuery (fun _ => Except.error (JsThrown.jsError "boom")) "x" =
      { success := false, ast := none, error := some "boom" } :=
  (parseQuery_total (fun _ => Except.error (JsThrown.jsError "boom")) "x").2
    (JsThrown.jsError "boom") rfl

/-- C4: when the producer returns a tree containing any node flagged as an
error, `parseQuery` returns exactly the `Parse error in query` failure
(no partial AST); when the tree is error-free but its top node has no
first child, it returns exactly the `Empty query` failure. -/
theorem parseQuery_error_paths (parse : String → Except JsThrown SynNode)
    (query : String) (tree : SynNode) (hok : parse query = .ok tree) :
    (hasErrorNode tree = true →
      parseQuery parse query =
        { success := false, ast := none, error := some "Parse error in query" }) ∧
    (hasErrorNode tree = false → tree.children = [] →
      parseQuery parse query =
        { success := false, ast := none, error := some "Empty query" }) := by
  constructor
  · intro he
    unfold parseQuery
    rw [hok]
    simp [he]
  · intro he hc
    unfold parseQuery
    rw [hok]
    simp [he, SynNode.firstChild, hc]

/-- Witness for C4 at a concrete errored tree and a concrete empty tree. -/
theorem parseQuery_error_paths_witness :
    parseQuery
      (fun _ => Except.ok (SynNode.mk "PromQL" 0 1 false
        [SynNode.mk "⚠" 0 1 true []])) "(" =
      { success := false, ast := none, error := some "Parse error in query" } ∧
    parseQuery (fun _ => Except.ok (SynNode.mk "PromQL" 0 0 false [])) "" =
      { success := false, ast := none, error := some "Empty query" } := by
  constructor
  · exact (parseQuery_error_paths
      (fun _ => Except.ok (SynNode.mk "PromQL" 0 1 false
        [SynNode.mk "⚠" 0 1 true []])) "("
      (SynNode.mk "PromQL" 0 1 false [SynNode.mk "⚠" 0 1 true []]) rfl).1
      (by decide)
  · exact (parseQuery_error_paths
      (fun _ => Except.ok (SynNode.mk "PromQL" 0 0 false [])) ""
      (SynNode.mk "PromQL" 0 0 false []) rfl).2 (by decide) rfl

/-- The aggregation verb phrase of `explainQuery`: the table entry for the
operator, with the `applies {op} to` fallback. -/
def aggOpDescStr (op : Option String) : String :=
  match aggOpDescs (op.getD "") with
  | some d => d
  | none => "applies " ++ jsInterp op ++ " to"

/-- The duration part of the matrix-selector sentence of `explainQuery`:
`formatDuration` of a truthy (present, nonzero) range, and the words
`5 minutes` otherwise. -/
def matrixDurStr (range : Option Nat) : String :=
  match range with
  | some r => if r ≠ 0 then formatDuration r else "5 minutes"
  | none => "5 minutes"

theorem explainQuery_agg_cases (pn : ParsedNode)
    (h : pn.type = NodeType.aggregation) :
    ((pn.grouping = none ∨ pn.grouping = some []) →
      explainQuery pn = "This expression " ++ aggOpDescStr pn.op ++ " the values") ∧
    (∀ g : List String, pn.grouping = some g → 0 < g.length →
      (pn.without).getD false = true →
      explainQuery pn = "This expression " ++ aggOpDescStr pn.op ++ " the values" ++
        ", excluding labels: " ++ String.intercalate ", " g) ∧
    (∀ g : List String, pn.grouping = some g → 0 < g.length →
      (pn.without).getD false = false →
      explainQuery pn = "This expression " ++ aggOpDescStr pn.op ++ " the values" ++
        ", grouped by: " ++ String.intercalate ", " g) := by
  cases pn with
  | mk ty tx ch op nm ms rg off gr wo fn ar v =>
      simp only [ParsedNode.type] at h
      subst h
      simp only [explainQuery, ParsedNode.type, ParsedNode.op, ParsedNode.grouping,
        ParsedNode.without, aggOpDescStr]
      refine ⟨fun hg => ?_, fun g hg hlen hw => ?_, fun g hg hlen hw => ?_⟩
      · rcases hg with hg | hg <;> subst hg <;> simp
      · subst hg
        simp [hlen, hw]
      · subst hg
        simp [hlen, hw]

theorem explainQuery_matrix_eq (pn : ParsedNode)
    (h : pn.type = NodeType.matrixSelector) :
    explainQuery pn =
      "Selects " ++ matrixDurStr pn.range ++ " of data for \"" ++
        jsOrStr pn.name "(any)" ++ "\"" ++
      (match pn.matchers with
       | some matchers => if 0 < matchers.length then " with label filters" else ""
       | none => "") := by
  cases pn with
  | mk ty tx ch op nm ms rg off gr wo fn ar v =>
      simp only [ParsedNode.type] at h
      subst h
      simp only [explainQuery, ParsedNode.type, ParsedNode.range, ParsedNode.name,
        ParsedNode.matchers, matrixDurStr]
      rcases ms with _ | m
      · simp [String.append_empty]
      · by_cases hm : 0 < m.length <;> simp_all [String.append_empty]

theorem explainQuery_vector_cases (pn : ParsedNode)
    (h : pn.type = NodeType.vectorSelector) :
    ((pn.matchers = none ∨ pn.matchers = some []) →
      explainQuery pn = "Selects the metric \"" ++ jsOrStr pn.name "(any)" ++ "\"") ∧
    (∀ m : List LabelMatcher, pn.matchers = some m → 0 < m.length →
      explainQuery pn = "Selects the metric \"" ++ jsOrStr pn.name "(any)" ++ "\"" ++
        " where " ++ String.intercalate " AND " (m.map matcherDesc)) := by
  cases pn with
  | mk ty tx ch op nm ms rg off gr wo fn ar v =>
      simp only [ParsedNode.type] at h
      subst h
      simp only [explainQuery, ParsedNode.type, ParsedNode.name, ParsedNode.matchers]
      refine ⟨fun hm => ?_, fun m hm hlen => ?_⟩
      · rcases hm with hm | hm <;> subst hm <;> simp
      · subst hm
        simp [hlen]

/-- The concrete syntax tree the lezer grammar produces for the query
`sum by (status) (rate(x[5m]))` (byte offsets into that string). -/
def sumByStatusCST : SynNode :=
  SynNode.mk "AggregateExpr" 0 29 false
    [SynNode.mk "AggregateOp" 0 3 false [],
     SynNode.mk "AggregateModifier" 4 15 false
       [SynNode.mk "GroupingLabels" 7 15 false
         [SynNode.mk "LabelName" 8 14 false []]],
     SynNode.mk "FunctionCallBody" 16 29 false
       [SynNode.mk "FunctionCall" 17 28 false
         [SynNode.mk "FunctionIdentifier" 17 21 false [],
          SynNode.mk "FunctionCallBody" 21 28 false
            [SynNode.mk "MatrixSelector" 22 27 false
              [SynNode.mk "VectorSelector" 22 23 false
                [SynNode.mk "Identifier" 22 23 false []],
               SynNode.mk "Duration" 24 26 false []]]]]]

/-- C6: the explanation of an aggregation node is `This expression
{verb-phrase} the values` with the verb phrase drawn from the fixed
operator table (falling back to `applies {op} to` for unknown
operators), to which `, excluding labels: ...` is appended when the
grouping list is non-empty and the without flag is set, `, grouped by:
...` when it is non-empty and the flag is not set, and nothing when the
grouping is empty; in particular the outer aggregation node built from
`sum by (status) (rate(x[5m]))` explains as `This expression sums the
values, grouped by: status`. -/
theorem explainQuery_aggregation_spec :
    (∀ pn : ParsedNode, pn.type = NodeType.aggregation →
      ((pn.grouping = none ∨ pn.grouping = some []) →
        explainQuery pn =
          "This expression " ++ aggOpDescStr pn.op ++ " the values") ∧
      (∀ g : List String, pn.grouping = some g → 0 < g.length →
        (pn.without).getD false = true →
        explainQuery pn =
          "This expression " ++ aggOpDescStr pn.op ++ " the values" ++
            ", excluding labels: " ++ String.intercalate ", " g) ∧
      (∀ g : List String, pn.grouping = some g → 0 < g.length →
        (pn.without).getD false = false →
        explainQuery pn =
          "This expression " ++ aggOpDescStr pn.op ++ " the values" ++
            ", grouped by: " ++ String.intercalate ", " g)) ∧
    (∀ o : String, aggOpDescs o = none →
      aggOpDescStr (some o) = "applies " ++ o ++ " to") ∧
    explainQuery (buildAST sumByStatusCST "sum by (status) (rate(x[5m]))") =
      "This expression sums the values, grouped by: status" := by
  refine ⟨explainQuery_agg_cases, fun o ho => ?_, ?_⟩
  · simp [aggOpDescStr, ho, jsInterp]
  · rw [sumByStatusCST, buildAST.eq_def]
    decide

/-- Witness for C6 at a concrete aggregation node. -/
theorem explainQuery_aggregation_witness :
    explainQuery
      (ParsedNode.mk NodeType.aggregation "avg(x)" (some []) (some "avg") none
        none none none (some []) (some false) none none none) =
      "This expression calculates the average of the values" := by
  have h := ((explainQuery_aggregation_spec.1
    (ParsedNode.mk NodeType.aggregation "avg(x)" (some []) (some "avg") none
      none none none (some []) (some false) none none none) rfl).1
    (Or.inr (by simp [ParsedNode.grouping])))
  simpa [aggOpDescStr, aggOpDescs, ParsedNode.op] using h

/-- C7: for a matrix-selector node whose range is a present positive
number, the explanation is `Selects {formatDuration(range)} of data for
"{name or (any)}"`, with ` with label filters` appended exactly when the
matchers list is non-empty; `formatDuration` renders with the largest
whole unit among d, h, m, s, ms, e.g. 300000 ms as `5m`. -/
theorem explainQuery_matrixSelector_spec :
    (∀ (pn : ParsedNode) (r : Nat), pn.type = NodeType.matrixSelector →
      pn.range = some r → 0 < r →
      ((pn.matchers = none ∨ pn.matchers = some []) →
        explainQuery pn = "Selects " ++ formatDuration r ++ " of data for \"" ++
          jsOrStr pn.name "(any)" ++ "\"") ∧
      (∀ m : List LabelMatcher, pn.matchers = some m → 0 < m.length →
        explainQuery pn = "Selects " ++ formatDuration r ++ " of data for \"" ++
          jsOrStr pn.name "(any)" ++ "\"" ++ " with label filters")) ∧
    formatDuration 300000 = "5m" ∧
    formatDuration 7200000 = "2h" ∧
    formatDuration 172800000 = "2d" ∧
    formatDuration 45000 = "45s" ∧
    formatDuration 250 = "250ms" := by
  refine ⟨fun pn r hty hr hrpos => ?_, by decide, by decide, by decide,
    by decide, by decide⟩
  have he := explainQuery_matrix_eq pn hty
  rw [hr] at he
  constructor
  · intro hm
    rcases hm with hm | hm <;> rw [he, hm] <;>
      simp [matrixDurStr, Nat.pos_iff_ne_zero.mp hrpos, String.append_empty]
  · intro m hm hlen
    rw [he, hm]
    simp [matrixDurStr, Nat.pos_iff_ne_zero.mp hrpos, hlen]

/-- Witness for C7 at a concrete matrix-selector node with a 300000 ms
range and no matchers. -/
theorem explainQuery_matrixSelector_witness :
    explainQuery
      (ParsedNode.mk NodeType.matrixSelector "x[5m]" none none (some "x") (some [])
        (some 300000) none none none none none none) =
      "Selects 5m of data for \"x\"" := by
  have h := ((explainQuery_matrixSelector_spec.1
    (ParsedNode.mk NodeType.matrixSelector "x[5m]" none none (some "x") (some [])
      (some 300000) none none none none none none) 300000 rfl rfl (by decide)).1
    (Or.inr (by simp [ParsedNode.matchers])))
  simpa [jsOrStr, ParsedNode.name] using h

/-- C8: a vector selector without a metric-identifier child is built with
the empty name; `explainQuery` renders an empty (or absent) name as
`(any)`, and appends ` where {m1} AND {m2} ...` for non-empty matchers,
each rendered as `{name} {relation} "{value}"` with relation
equals / does not equal / matches regex / does not match regex. -/
theorem vectorSelector_default_name_spec :
    (∀ (n : SynNode) (q : String), n.kind = "VectorSelector" →
      n.getChild "Identifier" = none → n.getChild "MetricIdentifier" = none →
      (buildAST n q).name = some "") ∧
    (∀ pn : ParsedNode, pn.type = NodeType.vectorSelector →
      pn.name = some "" ∨ pn.name = none →
      ((pn.matchers = none ∨ pn.matchers = some []) →
        explainQuery pn = "Selects the metric \"(any)\"") ∧
      (∀ m : List LabelMatcher, pn.matchers = some m → 0 < m.length →
        explainQuery pn = "Selects the metric \"(any)\"" ++ " where " ++
          String.intercalate " AND " (m.map matcherDesc))) ∧
    (∀ nm v : String,
      matcherDesc ⟨.eq, nm, v⟩ = nm ++ " equals \"" ++ v ++ "\"" ∧
      matcherDesc ⟨.neq, nm, v⟩ = nm ++ " does not equal \"" ++ v ++ "\"" ∧
      matcherDesc ⟨.re, nm, v⟩ = nm ++ " matches regex \"" ++ v ++ "\"" ∧
      matcherDesc ⟨.nre, nm, v⟩ = nm ++ " does not match regex \"" ++ v ++ "\"") := by
  refine ⟨fun n q hk hId hMid => ?_, fun pn hty hnm => ?_,
    fun nm v => ⟨rfl, rfl, rfl, rfl⟩⟩
  · rw [buildAST.eq_def]
    simp [hk, hId, hMid, ParsedNode.name]
  · have hc := explainQuery_vector_cases pn hty
    have hn : jsOrStr pn.name "(any)" = "(any)" := by
      rcases hnm with hnm | hnm <;> rw [hnm] <;> simp [jsOrStr]
    constructor
    · intro hm
      rw [(hc.1 hm), hn]
      rfl
    · intro m hm hlen
      rw [(hc.2 m hm hlen), hn]
      rfl

/-- Witness for C8 at a concrete identifier-less vector selector and a
concrete rendered matcher. -/
theorem vectorSelector_default_name_witness :
    (buildAST (SynNode.mk "VectorSelector" 0 1 false []) "v").name = some "" ∧
    explainQuery
      (ParsedNode.mk NodeType.vectorSelector "v" none none (some "")
        (some [⟨.neq, "instance", "a"⟩]) none none none none none none none) =
      "Selects the metric \"(any)\" where instance does not equal \"a\"" := by
  constructor
  · exact vectorSelector_default_name_spec.1
      (SynNode.mk "VectorSelector" 0 1 false []) "v" rfl rfl rfl
  · have h := (vectorSelector_default_name_spec.2.1
      (ParsedNode.mk NodeType.vectorSelector "v" none none (some "")
        (some [⟨.neq, "instance", "a"⟩]) none none none none none none none)
      rfl (Or.inl rfl)).2 [⟨.neq, "instance", "a"⟩] rfl (by decide)
    simpa [matcherDesc, String.intercalate] using h

/-- C10: a matrix-selector concrete node wrapping neither a vector
selector nor a function call is built as a matrixSelector node with no
range field; `explainQuery` renders a matrixSelector with absent (or 0)
range spelling the duration out as `5 minutes`, and one with a present
nonzero range using the compact `formatDuration` form. -/
theorem matrixSelector_range_shapes :
    (∀ (n : SynNode) (q : String), n.kind = "MatrixSelector" →
      n.getChild "VectorSelector" = none → n.getChild "FunctionCall" = none →
      buildAST n q =
        ParsedNode.mk NodeType.matrixSelector (jsSlice q n.fromPos n.toPos)
          none none none none none none none none none none none) ∧
    (∀ pn : ParsedNode, pn.type = NodeType.matrixSelector →
      pn.range = none ∨ pn.range = some 0 →
      explainQuery pn = "Selects " ++ "5 minutes" ++ " of data for \"" ++
        jsOrStr pn.name "(any)" ++ "\"" ++
        (match pn.matchers with
         | some matchers => if 0 < matchers.length then " with label filters" else ""
         | none => "")) ∧
    (∀ (pn : ParsedNode) (r : Nat), pn.type = NodeType.matrixSelector →
      pn.range = some r → r ≠ 0 →
      explainQuery pn = "Selects " ++ formatDuration r ++ " of data for \"" ++
        jsOrStr pn.name "(any)" ++ "\"" ++
        (match pn.matchers with
         | some matchers => if 0 < matchers.length then " with label filters" else ""
         | none => "")) := by
  refine ⟨fun n q hk hv hf => ?_, fun pn hty hr => ?_, fun pn r hty hr hrne => ?_⟩
  · rw [buildAST.eq_def]
    simp [hk]
    split
    · simp_all
    · split
      · simp_all
      · rfl
  · have he := explainQuery_matrix_eq pn hty
    rcases hr with hr | hr <;> rw [he, hr] <;> simp [matrixDurStr]
  · have he := explainQuery_matrix_eq pn hty
    rw [he, hr]
    simp [matrixDurStr, hrne]

/-- Witness for C10 at a concrete bare matrix-selector node. -/
theorem matrixSelector_range_shapes_witness :
    buildAST (SynNode.mk "MatrixSelector" 0 6 false []) "(x)[5m]" =
      ParsedNode.mk NodeType.matrixSelector (jsSlice "(x)[5m]" 0 6) none none
        none none none none none none none none none ∧
    explainQuery
      (ParsedNode.mk NodeType.matrixSelector "(x)[5m]" none none none none none
        none none none none none none) =
      "Selects 5 minutes of data for \"(any)\"" := by
  constructor
  · exact matrixSelector_range_shapes.1
      (SynNode.mk "MatrixSelector" 0 6 false []) "(x)[5m]" rfl rfl rfl
  · have h := matrixSelector_range_shapes.2.1
      (ParsedNode.mk NodeType.matrixSelector "(x)[5m]" none none none none none
        none none none none none none) rfl (Or.inl rfl)
    simpa [jsOrStr] using h

theorem parseDuration_pos (s : String) : 0 < parseDuration s := by
  unfold parseDuration
  dsimp only
  split
  · norm_num
  · omega

/-- C2, counterexample: the builder itself can produce a matrixSelector
node whose range field is absent — a matrix-selector concrete node that
wraps neither a vector selector nor a function call is built with
`range = none`, refuting that the range of every built matrixSelector
node is a present positive integer. -/
theorem buildAST_matrix_range_cx :
    (buildAST (SynNode.mk "MatrixSelector" 0 5 false []) "x[5m]").type =
      NodeType.matrixSelector ∧
    (buildAST (SynNode.mk "MatrixSelector" 0 5 false []) "x[5m]").range = none := by
  constructor <;> (rw [buildAST.eq_def]; decide)

/-- C2, amended: whenever a matrix-selector concrete node wraps a vector
selector, the built node's range is present and positive, and equals the
default 300000 when no duration child is found; only the degenerate
matrix-selector wrapping neither a vector selector nor a function call
is built with an absent range. -/
theorem buildAST_matrix_range_amended (n : SynNode) (q : String) (vs : SynNode)
    (hk : n.kind = "MatrixSelector") (hv : n.getChild "VectorSelector" = some vs) :
    ∃ r : Nat, (buildAST n q).range = some r ∧ 0 < r ∧
      ((n.getChild "Duration" <|>
          n.getChild "NumberDurationLiteralInDurationContext") = none →
        r = 300000) := by
  have key : buildAST n q =
      ParsedNode.mk NodeType.matrixSelector (jsSlice q n.fromPos n.toPos)
        none none (buildAST vs q).name (buildAST vs q).matchers
        (some (match n.getChild "Duration" <|>
            n.getChild "NumberDurationLiteralInDurationContext" with
          | some d => parseDuration (jsSlice q d.fromPos d.toPos)
          | none => 300000))
        none none none none none none := by
    rw [buildAST.eq_def]
    simp [hk]
    split
    · simp_all
    · split <;> simp_all
  rw [key]
  simp only [ParsedNode.range]
  rcases hD : n.getChild "Duration" with _ | d
  · rcases hN : n.getChild "NumberDurationLiteralInDurationContext" with _ | d
    · refine ⟨300000, ?_, by norm_num, fun _ => rfl⟩
      simp [hD, hN]
    · refine ⟨parseDuration (jsSlice q d.fromPos d.toPos), ?_,
        parseDuration_pos _, fun hnone => ?_⟩
      · simp [hD, hN]
      · simp [hD, hN] at hnone
  · refine ⟨parseDuration (jsSlice q d.fromPos d.toPos), ?_,
      parseDuration_pos _, fun hnone => ?_⟩
    · simp [hD]
    · simp [hD] at hnone

/-- Witness for the amended C2 at a concrete matrix selector with and
without a duration child. -/
theorem buildAST_matrix_range_amended_witness :
    (∃ r : Nat,
      (buildAST
        (SynNode.mk "MatrixSelector" 0 5 false
          [SynNode.mk "VectorSelector" 0 1 false [],
           SynNode.mk "Duration" 2 4 false []]) "x[5m]").range = some r ∧
      0 < r ∧
      (((SynNode.mk "MatrixSelector" 0 5 false
          [SynNode.mk "VectorSelector" 0 1 false [],
           SynNode.mk "Duration" 2 4 false []]).getChild "Duration" <|>
        (SynNode.mk "MatrixSelector" 0 5 false
          [SynNode.mk "VectorSelector" 0 1 false [],
           SynNode.mk "Duration" 2 4 false []]).getChild
            "NumberDurationLiteralInDurationContext") = none → r = 300000)) :=
  buildAST_matrix_range_amended
    (SynNode.mk "MatrixSelector" 0 5 false
      [SynNode.mk "VectorSelector" 0 1 false [],
       SynNode.mk "Duration" 2 4 false []]) "x[5m]"
    (SynNode.mk "VectorSelector" 0 1 false []) rfl rfl

/-- The kind names recognized by the `switch` of `buildAST`; every other
kind falls to the default arm. -/
def recognizedKinds : List String :=
  ["PromQL", "Expr", "AggregateExpr", "FunctionCall", "BinaryExpr",
   "VectorSelector", "MatrixSelector", "SubqueryExpr", "NumberLiteral",
   "NumberDurationLiteral", "StringLiteral", "ParenExpr", "UnaryExpr"]

/-- C9: on a concrete node of unrecognized kind the builder recurses into
every expression-typed direct child; if exactly one such child exists its
built node is returned directly, and otherwise the builder returns an
error node whose text is the node's own source slice and whose children
are the built expression children (omitted when there are none). -/
theorem buildAST_default_kind (n : SynNode) (q : String)
    (hk : n.kind ∉ recognizedKinds) :
    (∀ c : SynNode, n.children.filter isExpressionNode = [c] →
      buildAST n q = buildAST c q) ∧
    ((n.children.filter isExpressionNode).length ≠ 1 →
      buildAST n q =
        ParsedNode.mk NodeType.error (jsSlice q n.fromPos n.toPos)
          (match n.children.filter isExpressionNode with
           | [] => none
           | cs => some (cs.map (fun c => buildAST c q)))
          none none none none none none none none none none) := by
  simp only [recognizedKinds, List.mem_cons, List.not_mem_nil, or_false,
    not_or] at hk
  obtain ⟨h1, h2, h3, h4, h5, h6, h7, h8, h9, h10, h11, h12, h13⟩ := hk
  have key : buildAST n q =
      (match (n.children.filter isExpressionNode).map (fun c => buildAST c q) with
       | [c] => c
       | cs =>
           ParsedNode.mk NodeType.error (jsSlice q n.fromPos n.toPos)
             (match cs with | [] => none | _ => some cs)
             none none none none none none none none none none) := by
    rw [buildAST.eq_def]
    simp [h1, h2, h3, h4, h5, h6, h7, h8, h9, h10, h11, h12, h13,
      List.attach_map_val]
  constructor
  · intro c hc
    rw [key]
    simp [hc]
  · intro hlen
    rcases hfe : n.children.filter isExpressionNode with _ | ⟨c1, cs1⟩
    · rw [key]
      simp [hfe]
    · rcases cs1 with _ | ⟨c2, cs2⟩
      · exact absurd (by rw [hfe]; rfl) hlen
      · rw [key]
        simp [hfe]

/-- Witness for C9 at a concrete node of unrecognized kind with two
expression children. -/
theorem buildAST_default_kind_witness :
    buildAST
      (SynNode.mk "Foo" 0 3 false
        [SynNode.mk "NumberLiteral" 0 1 false [],
         SynNode.mk "NumberLiteral" 2 3 false []]) "1 2" =
      ParsedNode.mk NodeType.error (jsSlice "1 2" 0 3)
        (some [buildAST (SynNode.mk "NumberLiteral" 0 1 false []) "1 2",
               buildAST (SynNode.mk "NumberLiteral" 2 3 false []) "1 2"])
        none none none none none none none none none none := by
  have h := (buildAST_default_kind
    (SynNode.mk "Foo" 0 3 false
      [SynNode.mk "NumberLiteral" 0 1 false [],
       SynNode.mk "NumberLiteral" 2 3 false []]) "1 2" (by decide)).2 (by decide)
  simpa [List.filter, isExpressionNode, exprTypes, SynNode.children,
    SynNode.kind] using h
